import Mathlib

/-!
Verification of the Answer Grader & Distractor Generator of the
"Name That Memory" page (`name-that-memory.page.ts`).

Strings are embedded as `List Char`.  The TypeScript helpers
`normalizeToken`, `isSimilar`, `isSimilarToAny`, `levenshtein`,
`shuffle`, the option-building block of `startNewQuestion`, the
pool-deduplication block of `setupNewRun`, `selectAnswer`'s grading and
`skipCurrent` are translated below.  The two Unicode library calls the
source makes (`String.prototype.normalize('NFD')` and the regex class
`\p{Diacritic}`) are modelled by finite tables covering the Latin-1
range actually reachable from the surrounding pipeline; outside that
range the decomposition is the identity, which is exact for all ASCII
input.
-/

namespace NTM

/-- `s.toLowerCase()` acting on one UTF-16 code point: ASCII `A`-`Z`
and the Latin-1 uppercase letters map down by 32, everything else is
unchanged. -/
def jsToLower (c : Char) : Char :=
  if 65 ≤ c.toNat ∧ c.toNat ≤ 90 then Char.ofNat (c.toNat + 32)
  else if (192 ≤ c.toNat ∧ c.toNat ≤ 222) ∧ c.toNat ≠ 215 then Char.ofNat (c.toNat + 32)
  else c

/-- Canonical decomposition table for the Latin-1 letters with
diacritics (the range reachable after `jsToLower`); model of the
Unicode data behind `normalize('NFD')`. -/
def nfdTable (c : Char) : List Char :=
  let n := c.toNat
  if n = 224 then ['a', Char.ofNat 768]
  else if n = 225 then ['a', Char.ofNat 769]
  else if n = 226 then ['a', Char.ofNat 770]
  else if n = 227 then ['a', Char.ofNat 771]
  else if n = 228 then ['a', Char.ofNat 776]
  else if n = 229 then ['a', Char.ofNat 778]
  else if n = 231 then ['c', Char.ofNat 807]
  else if n = 232 then ['e', Char.ofNat 768]
  else if n = 233 then ['e', Char.ofNat 769]
  else if n = 234 then ['e', Char.ofNat 770]
  else if n = 235 then ['e', Char.ofNat 776]
  else if n = 236 then ['i', Char.ofNat 768]
  else if n = 237 then ['i', Char.ofNat 769]
  else if n = 238 then ['i', Char.ofNat 770]
  else if n = 239 then ['i', Char.ofNat 776]
  else if n = 241 then ['n', Char.ofNat 771]
  else if n = 242 then ['o', Char.ofNat 768]
  else if n = 243 then ['o', Char.ofNat 769]
  else if n = 244 then ['o', Char.ofNat 770]
  else if n = 245 then ['o', Char.ofNat 771]
  else if n = 246 then ['o', Char.ofNat 776]
  else if n = 249 then ['u', Char.ofNat 768]
  else if n = 250 then ['u', Char.ofNat 769]
  else if n = 251 then ['u', Char.ofNat 770]
  else if n = 252 then ['u', Char.ofNat 776]
  else if n = 253 then ['y', Char.ofNat 769]
  else if n = 255 then ['y', Char.ofNat 776]
  else [c]

/-- One step of `normalize('NFD')`: ASCII is already decomposed, the
non-ASCII part is looked up in the table. -/
def nfdChar (c : Char) : List Char :=
  if c.toNat ≤ 127 then [c] else nfdTable c

/-- Model of the regex class `\p{Diacritic}` on the range reachable
here: the combining-diacritical block U+0300..U+036F, the spacing
modifier letters U+02B0..U+02FF, and the Latin-1/ASCII spacing
diacritics. -/
def isDiacritic (c : Char) : Bool :=
  decide ((688 ≤ c.toNat ∧ c.toNat ≤ 879) ∨ c.toNat = 94 ∨ c.toNat = 96 ∨
    c.toNat = 168 ∨ c.toNat = 175 ∨ c.toNat = 180 ∨ c.toNat = 183 ∨ c.toNat = 184)

/-- The character class `[a-z0-9]` kept by the final
`replace(/[^a-z0-9]/g, '')`. -/
def isLowerAlnum (c : Char) : Bool :=
  decide ((97 ≤ c.toNat ∧ c.toNat ≤ 122) ∨ (48 ≤ c.toNat ∧ c.toNat ≤ 57))

/-- `normalizeToken` (page line 520): lowercase, canonical
decomposition, strip diacritics, keep only `[a-z0-9]`. -/
def normalizeToken (s : List Char) : List Char :=
  (((s.map jsToLower).flatMap nfdChar).filter (fun c => !isDiacritic c)).filter isLowerAlnum

/-- `a.includes(b)` on strings: `b` occurs in `a` as a contiguous
substring (the empty string occurs in everything). -/
def includes (s sub : List Char) : Bool :=
  sub.isPrefixOf s ||
    match s with
    | [] => false
    | _ :: t => includes t sub

/-- One row of the `levenshtein` DP (page lines 560-569): given the
remaining column characters of `b`, the remainder of the previous row,
the diagonal value and the value to the left, produce the remainder of
the current row. -/
def levRowAux (x : Char) : List Char → List Nat → Nat → Nat → List Nat
  | [], _, _, _ => []
  | _ :: _, [], _, _ => []
  | y :: ys, p :: ps, diag, left =>
      let c := min (min (p + 1) (left + 1)) (diag + (if x = y then 0 else 1))
      c :: levRowAux x ys ps p c

/-- The row for prefix length `i` of `a`, computed from the previous
row `prev` (which starts with the diagonal value for column 1). -/
def levNextRow (x : Char) (b : List Char) (prev : List Nat) (i : Nat) : List Nat :=
  match prev with
  | [] => [i]
  | d :: ps => i :: levRowAux x b ps d i

/-- Outer loop of the DP: fold the remaining characters of `a` over the
row, with `i` the index of the row being produced. -/
def levLoop (b : List Char) : List Char → List Nat → Nat → List Nat
  | [], row, _ => row
  | x :: xs, row, i => levLoop b xs (levNextRow x b row i) (i + 1)

/-- `levenshtein` (page lines 553-571): classic dynamic-programming
edit distance with unit costs, including the two `m === 0` / `n === 0`
early returns. -/
def levenshtein (a b : List Char) : Nat :=
  if a.length = 0 then b.length
  else if b.length = 0 then a.length
  else ((levLoop b a (List.range (b.length + 1)) 1).getLastD 0)

/-- `isSimilar` (page lines 527-538), translated branch for branch: the
inner `if (Math.abs(...) <= 2) return true;` without an `else` falls
through to the Levenshtein check, which the conjunction reproduces. -/
def isSimilar (a b : List Char) : Bool :=
  let na := normalizeToken a
  let nb := normalizeToken b
  if na = [] ∨ nb = [] then false
  else if na = nb then true
  else if (includes na nb || includes nb na) ∧
      ((na.length : Int) - (nb.length : Int)).natAbs ≤ 2 then true
  else
    let d := levenshtein na nb
    if max na.length nb.length ≤ 5 then decide (d ≤ 1) else decide (d ≤ 2)

/-- `isSimilarToAny` (page lines 540-551); the `Set` of normalized user
labels is embedded as a list, whose membership and iteration semantics
are what the function observes. -/
def isSimilarToAny (name : List Char) (normalizedUserSet : List (List Char)) : Bool :=
  let n := normalizeToken name
  if normalizedUserSet.contains n then true
  else normalizedUserSet.any fun u =>
    let d := levenshtein n u
    (if max n.length u.length ≤ 5 then decide (d ≤ 1) else decide (d ≤ 2)) ||
      ((includes n u || includes u n) ∧
        ((n.length : Int) - (u.length : Int)).natAbs ≤ 2)

/-- The grading step of `selectAnswer` (page line 395):
`this.isCorrect = this.isSimilar(choice, correct) || choice === correct`. -/
def grade (choice correct : List Char) : Bool :=
  isSimilar choice correct || choice == correct

/-- The simultaneous assignment `[a[i], a[j]] = [a[j], a[i]]` inside
`shuffle` (page line 514); out-of-range indices leave the list as is
(the loop never produces them). -/
def swap {α : Type} (l : List α) (i j : Nat) : List α :=
  match l.get? i, l.get? j with
  | some x, some y => (l.set i y).set j x
  | _, _ => l

/-- The Fisher-Yates loop of `shuffle` (page lines 511-518): the
counter argument is the current index `i`, running from
`arr.length - 1` down to `1`; the draw `Math.floor(Math.random() *
(i + 1))` is modelled by an arbitrary `Nat` source reduced mod
`i + 1`. -/
def shuffleAux {α : Type} (r : Nat → Nat) : Nat → List α → List α
  | 0, a => a
  | i + 1, a => shuffleAux r i (swap a (i + 1) (r (i + 1) % (i + 2)))

/-- `shuffle` (page lines 511-518). -/
def shuffle {α : Type} (r : Nat → Nat) (arr : List α) : List α :=
  shuffleAux r (arr.length - 1) arr

/-- The `while (poolNames.length < 3 && defaultFillers.length > 0)
poolNames.push(defaultFillers.shift())` loop of `startNewQuestion`
(page lines 381-383). -/
def fillTo3 {α : Type} : List α → List α → List α
  | pool, [] => pool
  | pool, f :: fs => if pool.length < 3 then fillTo3 (pool ++ [f]) fs else pool

/-- The fixed filler list `DEFAULT_NAMES` (page lines 103-107). -/
def DEFAULT_NAMES : List (List Char) :=
  ["Aurelia".toList, "Thaddeus".toList, "Isolde".toList, "Cassian".toList,
   "Mirella".toList, "Osric".toList, "Linnea".toList, "Percival".toList,
   "Elowen".toList, "Soren".toList, "Calliope".toList, "Evander".toList,
   "Brielle".toList, "Lucian".toList, "Marisol".toList]

/-- `filtered` of `startNewQuestion` (page lines 368-373): the labels
of the pool other than the correct one, with the ones similar to the
correct label removed. -/
def candidateDistractors (correct : List Char) (gameLabels : List (List Char)) :
    List (List Char) :=
  (gameLabels.filter fun l => !(l == correct)).filter fun l => !isSimilar l correct

/-- `defaultFillers` of `startNewQuestion` (page lines 377-380): the
fillers surviving both similarity filters. -/
def acceptedFillers (correct : List Char) (gameLabels fillers : List (List Char)) :
    List (List Char) :=
  (fillers.filter fun n => !isSimilarToAny n (gameLabels.map normalizeToken)).filter
    fun n => !isSimilar n correct

/-- `poolNames.slice(0, 3)` after the fill loop (page line 385): the
distractors actually offered. -/
def chosenDistractors (r1 : Nat → Nat) (correct : List Char)
    (gameLabels fillers : List (List Char)) : List (List Char) :=
  (fillTo3 (shuffle r1 (candidateDistractors correct gameLabels))
    (acceptedFillers correct gameLabels fillers)).take 3

/-- The options block of `startNewQuestion` (page lines 366-386):
`this.options = this.shuffle([correct, ...poolNames.slice(0, 3)])`,
with the two shuffles driven by their own random sources. -/
def buildOptions (r1 r2 : Nat → Nat) (correct : List Char)
    (gameLabels fillers : List (List Char)) : List (List Char) :=
  shuffle r2 (correct :: chosenDistractors r1 correct gameLabels fillers)

/-- The §4.2 similarity algorithm as the specification words it, for
comparison with the source translation `isSimilar`: normalize both
inputs, empty token means false, equal tokens mean true, substring
containment with length difference at most 2 means true, otherwise the
Levenshtein distance is compared against 1 or 2 according to whether
the longer normalized token has length at most 5. -/
def isSimilarSpec (a b : List Char) : Bool :=
  let na := normalizeToken a
  let nb := normalizeToken b
  if na.isEmpty || nb.isEmpty then false
  else if na = nb then true
  else if (includes na nb || includes nb na) &&
      decide (max na.length nb.length - min na.length nb.length ≤ 2) then true
  else
    let d := levenshtein na nb
    if 5 < max na.length nb.length then decide (d ≤ 2) else decide (d ≤ 1)

/-- `GameCard` (page lines 18-23); `id` is optional as in the source
interface. -/
structure GameCard where
  id : Option (List Char)
  label : List Char
  image : List Char
  category : List Char
deriving DecidableEq

/-- The dedup key of `setupNewRun` (page line 208):
`` `${c.category}::${(c.label || '').toLowerCase()}::${c.image}` ``. -/
def cardKey (c : GameCard) : List Char :=
  c.category ++ [':', ':'] ++ c.label.map jsToLower ++ [':', ':'] ++ c.image

/-- The pool-building filter of `setupNewRun` (page lines 206-212): the
`seen` set is threaded explicitly; note the source adds the key to
`seen` before testing `!!c.label && !!c.image`, exactly as here. -/
def dedupPool : List (List Char) → List GameCard → List GameCard
  | _, [] => []
  | seen, c :: rest =>
    if cardKey c ∈ seen then dedupPool seen rest
    else if c.label ≠ [] ∧ c.image ≠ [] then c :: dedupPool (cardKey c :: seen) rest
    else dedupPool (cardKey c :: seen) rest

/-- The round state of the page component (lines 74-96), restricted to
the fields the game-flow methods read or write. -/
structure GameState where
  gameCards : List GameCard
  currentCard : Option GameCard
  options : List (List Char)
  currentQuestion : Nat
  totalQuestions : Nat
  correctAnswers : Nat
  showResult : Bool
  isCorrect : Bool
  showGameComplete : Bool
  shouldCompleteAfterResult : Bool
  skipCount : Nat
  skippedCardIds : List (List Char)
  askedLabels : List (List Char)
deriving DecidableEq

/-- The random draws a question consumes: the card pick of line 362 and
the sources of the two `shuffle` calls. -/
structure Rand where
  pick : Nat
  sh1 : Nat → Nat
  sh2 : Nat → Nat

/-- `endGame` (page lines 437-476): the Firebase/localStorage session
write is external I/O; the component state it leaves behind is
`showResult = false`, `showGameComplete = true`, everything else
untouched. -/
def endGame (s : GameState) : GameState :=
  { s with showResult := false, showGameComplete := true }

/-- `this.askedLabels.add(card.label)` (page line 363): adding to a
`Set` is a no-op on a present element. -/
def addLabel (l : List Char) (asked : List (List Char)) : List (List Char) :=
  if l ∈ asked then asked else l :: asked

/-- Placeholder for the unreachable out-of-range index of the card
pick; the guarded branch guarantees the base pool is non-empty. -/
def defaultCard : GameCard :=
  { id := none, label := [], image := [], category := [] }

/-- `startNewQuestion` (page lines 351-390). -/
def startNewQuestion (r : Rand) (s : GameState) : GameState :=
  if s.totalQuestions ≤ s.currentQuestion ∨ s.gameCards = [] then endGame s
  else
    let s1 : GameState := { s with currentQuestion := s.currentQuestion + 1 }
    let pool := s1.gameCards.filter fun c => !(s1.askedLabels.contains c.label)
    let base := if pool.length ≠ 0 then pool else s1.gameCards
    let card := base.getD (r.pick % base.length) defaultCard
    { s1 with
      askedLabels := addLabel card.label s1.askedLabels,
      currentCard := some card,
      options := buildOptions r.sh1 r.sh2 card.label
        (s1.gameCards.map GameCard.label) DEFAULT_NAMES,
      showResult := false,
      isCorrect := false,
      shouldCompleteAfterResult := false }

/-- `skipCurrent` (page lines 403-413): the id is pushed only when the
card has a truthy (present and non-empty) id. -/
def skipCurrent (r : Rand) (s : GameState) : GameState :=
  match s.currentCard with
  | none => s
  | some c =>
    let s1 : GameState := { s with
      skipCount := s.skipCount + 1,
      skippedCardIds :=
        match c.id with
        | some i => if i ≠ [] then s.skippedCardIds ++ [i] else s.skippedCardIds
        | none => s.skippedCardIds }
    if s1.totalQuestions ≤ s1.currentQuestion then endGame s1
    else startNewQuestion r s1

/-- A fixed random source for concrete evaluations. -/
def demoRand : Rand := { pick := 0, sh1 := fun _ => 0, sh2 := fun _ => 0 }

/-- Concrete cards for the concrete evaluations below. -/
def annaCard : GameCard := ⟨none, "Anna".toList, "img".toList, "people".toList⟩

def annaSpacedCard : GameCard := ⟨none, "Ann a".toList, "img".toList, "people".toList⟩

def boCard : GameCard := ⟨none, "Bo".toList, "i".toList, "people".toList⟩

def zedCard : GameCard := ⟨some "x1".toList, "Zed".toList, "img".toList, "people".toList⟩

def ivyCard : GameCard := ⟨some "y2".toList, "Ivy".toList, "i".toList, "people".toList⟩

/-- A mid-game state showing its result screen after a correct answer:
question 1 of 2 answered, `isCorrect` still `true`, a current card
present. -/
def skipDemoState : GameState :=
  { gameCards := [zedCard], currentCard := some zedCard, options := [],
    currentQuestion := 1, totalQuestions := 2, correctAnswers := 0,
    showResult := true, isCorrect := true, showGameComplete := false,
    shouldCompleteAfterResult := false, skipCount := 0, skippedCardIds := [],
    askedLabels := ["Zed".toList] }

/-- A state at the last question, used to exercise the game-over skip
path. -/
def lastSkipState : GameState :=
  { gameCards := [], currentCard := some ivyCard, options := [],
    currentQuestion := 3, totalQuestions := 3, correctAnswers := 2,
    showResult := false, isCorrect := false, showGameComplete := false,
    shouldCompleteAfterResult := false, skipCount := 1, skippedCardIds := [],
    askedLabels := [] }

/-- Replacing an element of the tail by the head is a permutation of
putting the head in front of the old tail. -/
theorem cons_set_perm {α : Type} (t : List α) (k : Nat) (a y : α)
    (hk : t.get? k = some y) : (y :: t.set k a).Perm (a :: t) := by
  induction t generalizing k with
  | nil => simp at hk
  | cons b t' ih =>
    cases k with
    | zero =>
      have hby : b = y := by simpa using hk
      show (y :: a :: t').Perm (a :: b :: t')
      rw [← hby]
      exact List.Perm.swap a b t'
    | succ k =>
      have hk' : t'.get? k = some y := by simpa using hk
      show (y :: b :: t'.set k a).Perm (a :: b :: t')
      have h1 : (y :: b :: t'.set k a).Perm (b :: y :: t'.set k a) :=
        List.Perm.swap b y _
      have h2 : (b :: y :: t'.set k a).Perm (b :: a :: t') :=
        List.Perm.cons b (ih k hk')
      have h3 : (b :: a :: t').Perm (a :: b :: t') := List.Perm.swap a b t'
      exact (h1.trans h2).trans h3

/-- Swapping two present positions of a list is a permutation. -/
theorem set_set_perm {α : Type} (l : List α) (i j : Nat) (x y : α)
    (hi : l.get? i = some x) (hj : l.get? j = some y) :
    ((l.set i y).set j x).Perm l := by
  induction l generalizing i j with
  | nil => simp at hi
  | cons a t ih =>
    cases i with
    | zero =>
      have hax : a = x := by simpa using hi
      cases j with
      | zero =>
        show (x :: t).Perm (a :: t)
        rw [hax]
      | succ j =>
        have hj' : t.get? j = some y := by simpa using hj
        show (y :: t.set j x).Perm (a :: t)
        rw [hax]
        exact cons_set_perm t j x y hj'
    | succ i =>
      have hi' : t.get? i = some x := by simpa using hi
      cases j with
      | zero =>
        have hay : a = y := by simpa using hj
        show (x :: t.set i y).Perm (a :: t)
        rw [hay]
        exact cons_set_perm t i y x hi'
      | succ j =>
        have hj' : t.get? j = some y := by simpa using hj
        show (a :: (t.set i y).set j x).Perm (a :: t)
        exact List.Perm.cons a (ih i j hi' hj')

theorem swap_perm {α : Type} (l : List α) (i j : Nat) : (swap l i j).Perm l := by
  rcases hi : l.get? i with _ | x <;> rcases hj : l.get? j with _ | y <;>
    simp only [swap, hi, hj]
  · exact List.Perm.refl l
  · exact List.Perm.refl l
  · exact List.Perm.refl l
  · exact set_set_perm l i j x y hi hj

theorem shuffleAux_perm {α : Type} (r : Nat → Nat) :
    ∀ (n : Nat) (l : List α), (shuffleAux r n l).Perm l
  | 0, l => List.Perm.refl l
  | n + 1, l =>
      (shuffleAux_perm r n (swap l (n + 1) (r (n + 1) % (n + 2)))).trans
        (swap_perm l (n + 1) (r (n + 1) % (n + 2)))

theorem shuffle_perm {α : Type} (r : Nat → Nat) (l : List α) :
    (shuffle r l).Perm l :=
  shuffleAux_perm r (l.length - 1) l

theorem shuffle_length {α : Type} (r : Nat → Nat) (l : List α) :
    (shuffle r l).length = l.length :=
  (shuffle_perm r l).length_eq

theorem shuffle_mem {α : Type} (r : Nat → Nat) (l : List α) (x : α) :
    x ∈ shuffle r l ↔ x ∈ l :=
  (shuffle_perm r l).mem_iff

theorem fillTo3_mem {α : Type} :
    ∀ (fs pool : List α) (x : α), x ∈ fillTo3 pool fs → x ∈ pool ∨ x ∈ fs := by
  intro fs
  induction fs with
  | nil => intro pool x h; exact Or.inl h
  | cons f fs ih =>
    intro pool x h
    simp only [fillTo3] at h
    by_cases hp : pool.length < 3
    · rw [if_pos hp] at h
      rcases ih (pool ++ [f]) x h with h1 | h1
      · rcases List.mem_append.mp h1 with h2 | h2
        · exact Or.inl h2
        · have hx : x = f := by simpa using h2
          exact Or.inr (by simp [hx])
      · exact Or.inr (List.mem_cons_of_mem f h1)
    · rw [if_neg hp] at h
      exact Or.inl h

/-- The fill loop keeps appending until three distractors are present,
so three are present whenever the two sources jointly supply three. -/
theorem fillTo3_three_le {α : Type} :
    ∀ (fs pool : List α), 3 ≤ pool.length + fs.length → 3 ≤ (fillTo3 pool fs).length := by
  intro fs
  induction fs with
  | nil =>
    intro pool h
    simp only [fillTo3]
    simp only [List.length_nil] at h
    omega
  | cons f fs ih =>
    intro pool h
    simp only [fillTo3]
    by_cases hp : pool.length < 3
    · rw [if_pos hp]
      apply ih (pool ++ [f])
      simp only [List.length_append, List.length_cons] at h ⊢
      omega
    · rw [if_neg hp]
      omega

/-- The fill loop never removes anything from the list it extends. -/
theorem fillTo3_le_length {α : Type} :
    ∀ (fs pool : List α), pool.length ≤ (fillTo3 pool fs).length := by
  intro fs
  induction fs with
  | nil => intro pool; simp [fillTo3]
  | cons f fs ih =>
    intro pool
    simp only [fillTo3]
    by_cases hp : pool.length < 3
    · rw [if_pos hp]
      have := ih (pool ++ [f])
      simp only [List.length_append, List.length_cons] at this
      omega
    · rw [if_neg hp]

theorem jsToLower_alnum {c : Char} (h : isLowerAlnum c = true) : jsToLower c = c := by
  have h' : (97 ≤ c.toNat ∧ c.toNat ≤ 122) ∨ (48 ≤ c.toNat ∧ c.toNat ≤ 57) :=
    of_decide_eq_true h
  unfold jsToLower
  rw [if_neg (by omega), if_neg (by omega)]

theorem nfdChar_alnum {c : Char} (h : isLowerAlnum c = true) : nfdChar c = [c] := by
  have h' : (97 ≤ c.toNat ∧ c.toNat ≤ 122) ∨ (48 ≤ c.toNat ∧ c.toNat ≤ 57) :=
    of_decide_eq_true h
  unfold nfdChar
  rw [if_pos (by omega)]

theorem isDiacritic_alnum {c : Char} (h : isLowerAlnum c = true) : isDiacritic c = false := by
  have h' : (97 ≤ c.toNat ∧ c.toNat ≤ 122) ∨ (48 ≤ c.toNat ∧ c.toNat ≤ 57) :=
    of_decide_eq_true h
  unfold isDiacritic
  exact decide_eq_false (by omega)

/-- Every character surviving normalization lies in `[a-z0-9]` (the
outermost operation of `normalizeToken` is that filter). -/
theorem normalizeToken_mem_alnum {s : List Char} {c : Char}
    (h : c ∈ normalizeToken s) : isLowerAlnum c = true := by
  unfold normalizeToken at h
  exact (List.mem_filter.mp h).2

/-- A string made of `[a-z0-9]` characters is left unchanged by the
normalizer: such characters are lowercase, decompose to themselves,
are not diacritics and pass the final filter. -/
theorem normalizeToken_fixed {l : List Char} (h : ∀ c ∈ l, isLowerAlnum c = true) :
    normalizeToken l = l := by
  induction l with
  | nil => rfl
  | cons c t ih =>
    have hc := h c (List.mem_cons_self c t)
    have ht : ∀ x ∈ t, isLowerAlnum x = true := fun x hx => h x (List.mem_cons_of_mem c hx)
    have ihx := ih ht
    unfold normalizeToken at ihx ⊢
    simp only [List.map_cons, jsToLower_alnum hc, List.flatMap_cons, nfdChar_alnum hc,
      List.singleton_append, List.filter_cons, isDiacritic_alnum hc, Bool.not_false,
      hc, if_true, ihx]

theorem normalizeToken_idem (s : List Char) :
    normalizeToken (normalizeToken s) = normalizeToken s :=
  normalizeToken_fixed fun _ hc => normalizeToken_mem_alnum hc

/-- Every card the dedup filter keeps has a key outside the incoming
`seen` set, and the kept cards have pairwise distinct keys. -/
theorem dedupPool_keys :
    ∀ (cards : List GameCard) (seen : List (List Char)),
      (∀ c ∈ dedupPool seen cards, cardKey c ∉ seen) ∧
        (dedupPool seen cards).Pairwise (fun a b => cardKey a ≠ cardKey b) := by
  intro cards
  induction cards with
  | nil => intro seen; exact ⟨fun c hc => absurd hc (List.not_mem_nil c), List.Pairwise.nil⟩
  | cons c rest ih =>
    intro seen
    unfold dedupPool
    by_cases hs : cardKey c ∈ seen
    · rw [if_pos hs]
      exact ih seen
    · rw [if_neg hs]
      by_cases hw : c.label ≠ [] ∧ c.image ≠ []
      · rw [if_pos hw]
        have hrest := ih (cardKey c :: seen)
        constructor
        · intro d hd
          rcases List.mem_cons.mp hd with rfl | hd1
          · exact hs
          · intro hdseen
            exact hrest.1 d hd1 (List.mem_cons_of_mem _ hdseen)
        · refine List.Pairwise.cons ?_ hrest.2
          intro d hd
          have := hrest.1 d hd
          intro hkey
          exact this (hkey ▸ List.mem_cons_self (cardKey c) seen)
      · rw [if_neg hw]
        have hrest := ih (cardKey c :: seen)
        exact ⟨fun d hd => fun hdseen => hrest.1 d hd (List.mem_cons_of_mem _ hdseen),
          hrest.2⟩

/-- Cards kept by the dedup filter pass the `!!c.label && !!c.image`
test. -/
theorem dedupPool_wellFormed :
    ∀ (cards : List GameCard) (seen : List (List Char)) (c : GameCard),
      c ∈ dedupPool seen cards → c.label ≠ [] ∧ c.image ≠ [] := by
  intro cards
  induction cards with
  | nil => intro seen c hc; exact absurd hc (List.not_mem_nil c)
  | cons d rest ih =>
    intro seen c hc
    unfold dedupPool at hc
    by_cases hs : cardKey d ∈ seen
    · rw [if_pos hs] at hc
      exact ih seen c hc
    · rw [if_neg hs] at hc
      by_cases hw : d.label ≠ [] ∧ d.image ≠ []
      · rw [if_pos hw] at hc
        rcases List.mem_cons.mp hc with rfl | hc1
        · exact hw
        · exact ih (cardKey d :: seen) c hc1
      · rw [if_neg hw] at hc
        exact ih (cardKey d :: seen) c hc

/-- `endGame` only touches the two display flags. -/
theorem endGame_frame (s : GameState) :
    (endGame s).skipCount = s.skipCount ∧
    (endGame s).skippedCardIds = s.skippedCardIds ∧
    (endGame s).correctAnswers = s.correctAnswers ∧
    (endGame s).totalQuestions = s.totalQuestions ∧
    (endGame s).isCorrect = s.isCorrect := by
  simp [endGame]

/-- `startNewQuestion` never touches the skip or correctness counters
or the question budget, and only ever writes `false` into the
graded-correct flag. -/
theorem startNewQuestion_frame (r : Rand) (s : GameState) :
    (startNewQuestion r s).skipCount = s.skipCount ∧
    (startNewQuestion r s).skippedCardIds = s.skippedCardIds ∧
    (startNewQuestion r s).correctAnswers = s.correctAnswers ∧
    (startNewQuestion r s).totalQuestions = s.totalQuestions ∧
    ((startNewQuestion r s).isCorrect = s.isCorrect ∨
      (startNewQuestion r s).isCorrect = false) := by
  unfold startNewQuestion endGame
  split
  · simp
  · simp

/-- C1: `isSimilar` implements exactly the four-step short-circuit
algorithm of §4.2 — normalize both inputs, empty token ⇒ false, equal
tokens ⇒ true, substring containment with length difference ≤ 2 ⇒
true, otherwise Levenshtein distance ≤ 1 (longer token of length ≤ 5)
resp. ≤ 2 (longer token of length > 5).  The quantification over all
input strings also witnesses totality. -/
theorem C1_isSimilar_implements_spec :
    ∀ a b : List Char, isSimilar a b = isSimilarSpec a b := by
  intro a b
  have e0 : (normalizeToken a = [] ∨ normalizeToken b = []) ↔
      ((normalizeToken a).isEmpty || (normalizeToken b).isEmpty) = true := by
    simp [List.isEmpty_iff]
  have e1 : ((includes (normalizeToken a) (normalizeToken b) ||
        includes (normalizeToken b) (normalizeToken a)) = true ∧
      (((normalizeToken a).length : Int) -
        ((normalizeToken b).length : Int)).natAbs ≤ 2) ↔
      ((includes (normalizeToken a) (normalizeToken b) ||
        includes (normalizeToken b) (normalizeToken a)) &&
      decide (max (normalizeToken a).length (normalizeToken b).length -
        min (normalizeToken a).length (normalizeToken b).length ≤ 2)) = true := by
    rw [Bool.and_eq_true, decide_eq_true_iff]
    exact and_congr Iff.rfl (by omega)
  have e2 : (if max (normalizeToken a).length (normalizeToken b).length ≤ 5 then
        decide (levenshtein (normalizeToken a) (normalizeToken b) ≤ 1)
      else decide (levenshtein (normalizeToken a) (normalizeToken b) ≤ 2)) =
      (if 5 < max (normalizeToken a).length (normalizeToken b).length then
        decide (levenshtein (normalizeToken a) (normalizeToken b) ≤ 2)
      else decide (levenshtein (normalizeToken a) (normalizeToken b) ≤ 1)) := by
    by_cases h6 : max (normalizeToken a).length (normalizeToken b).length ≤ 5
    · rw [if_pos h6, if_neg (by omega)]
    · rw [if_neg h6, if_pos (by omega)]
  simp only [isSimilar, isSimilarSpec]
  exact if_congr e0 rfl (if_congr Iff.rfl rfl (if_congr e1 rfl e2))

/-- C4: the grader returns true iff the submission equals the correct
label exactly or is similar to it; `grade("Ana","Anna")` is true and
`grade("Bob","Anna")` is false. -/
theorem C4_grade_iff :
    (∀ submitted correctLabel : List Char,
      grade submitted correctLabel = true ↔
        submitted = correctLabel ∨ isSimilar submitted correctLabel = true) ∧
    grade "Ana".toList "Anna".toList = true ∧
    grade "Bob".toList "Anna".toList = false := by
  refine ⟨?_, by decide, by decide⟩
  intro s c
  unfold grade
  rw [Bool.or_eq_true, beq_iff_eq]
  tauto

theorem C4_witness : grade "Anne".toList "Anne".toList = true :=
  (C4_grade_iff.1 "Anne".toList "Anne".toList).mpr (Or.inl rfl)

/-- C5 fails as stated: the substring branch of `isSimilar` accepts
"Anna"/"An", whose normalized tokens are distinct, non-empty, of
length ≤ 5 and at Levenshtein distance 2. -/
theorem C5_counterexample :
    normalizeToken "Anna".toList ≠ normalizeToken "An".toList ∧
    normalizeToken "Anna".toList ≠ [] ∧ normalizeToken "An".toList ≠ [] ∧
    (normalizeToken "Anna".toList).length ≤ 5 ∧
    (normalizeToken "An".toList).length ≤ 5 ∧
    2 ≤ levenshtein (normalizeToken "Anna".toList) (normalizeToken "An".toList) ∧
    isSimilar "Anna".toList "An".toList = true := by decide

/-- C5 amended: for distinct non-empty normalized tokens of length at
most 5, `isSimilar` is false at distance ≥ 2 provided the substring
branch (containment with length difference ≤ 2) does not fire, and is
always true at distance exactly 1. -/
theorem C5_amended_short_names :
    ∀ a b : List Char,
      normalizeToken a ≠ normalizeToken b →
      normalizeToken a ≠ [] → normalizeToken b ≠ [] →
      (normalizeToken a).length ≤ 5 → (normalizeToken b).length ≤ 5 →
      ((¬((includes (normalizeToken a) (normalizeToken b) ||
            includes (normalizeToken b) (normalizeToken a)) = true ∧
          (((normalizeToken a).length : Int) -
            ((normalizeToken b).length : Int)).natAbs ≤ 2) →
        2 ≤ levenshtein (normalizeToken a) (normalizeToken b) →
        isSimilar a b = false) ∧
       (levenshtein (normalizeToken a) (normalizeToken b) = 1 →
        isSimilar a b = true)) := by
  intro a b hne h1 h2 hl1 hl2
  constructor
  · intro hsub hd
    simp only [isSimilar]
    rw [if_neg (by tauto), if_neg hne, if_neg hsub, if_pos (by omega)]
    exact decide_eq_false (by omega)
  · intro hd
    simp only [isSimilar]
    rw [if_neg (by tauto), if_neg hne]
    by_cases hsub : (includes (normalizeToken a) (normalizeToken b) ||
        includes (normalizeToken b) (normalizeToken a)) = true ∧
        (((normalizeToken a).length : Int) -
          ((normalizeToken b).length : Int)).natAbs ≤ 2
    · rw [if_pos hsub]
    · rw [if_neg hsub, if_pos (by omega)]
      exact decide_eq_true (by omega)

theorem C5_witness :
    isSimilar "Amy".toList "Kay".toList = false ∧
    isSimilar "Amy".toList "Any".toList = true :=
  ⟨(C5_amended_short_names "Amy".toList "Kay".toList (by decide) (by decide) (by decide)
      (by decide) (by decide)).1 (by decide) (by decide),
   (C5_amended_short_names "Amy".toList "Any".toList (by decide) (by decide) (by decide)
      (by decide) (by decide)).2 (by decide)⟩

/-- C6 fails as stated: "!" is a non-empty string, but its normalized
token is empty, so the empty-token guard makes `isSimilar("!","!")`
false. -/
theorem C6_counterexample :
    "!".toList ≠ ([] : List Char) ∧ isSimilar "!".toList "!".toList = false := by decide

/-- C6 amended: `isSimilar(a, a)` is true for every string whose
normalized token is non-empty. -/
theorem C6_amended_reflexive :
    ∀ a : List Char, normalizeToken a ≠ [] → isSimilar a a = true := by
  intro a h
  simp [isSimilar, h]

theorem C6_witness :
    normalizeToken "Anna".toList ≠ [] ∧ isSimilar "Anna".toList "Anna".toList = true :=
  ⟨by decide, C6_amended_reflexive "Anna".toList (by decide)⟩

/-- C9: the token normalizer is idempotent, and (the sense in which it
"removes every character outside `[a-z0-9]`") every character of its
output is in `[a-z0-9]`; it is a total function by construction. -/
theorem C9_normalize_idempotent :
    (∀ s : List Char, normalizeToken (normalizeToken s) = normalizeToken s) ∧
    (∀ (s : List Char) (c : Char), c ∈ normalizeToken s → isLowerAlnum c = true) :=
  ⟨normalizeToken_idem, fun _ _ hc => normalizeToken_mem_alnum hc⟩

theorem C9_witness :
    'a' ∈ normalizeToken "Añ-na!".toList ∧ isLowerAlnum 'a' = true :=
  ⟨by decide, C9_normalize_idempotent.2 "Añ-na!".toList 'a' (by decide)⟩

/-- C2 fails as stated: a filler name that coincides with a card-pool
label can enter the options through the pool path even though, as a
filler, it is similar (identical, here) to a pool label.  With pool
labels "Zed" (correct) and "Aurelia" and filler list ["Aurelia"], the
options contain "Aurelia". -/
theorem C2_counterexample :
    "Aurelia".toList ∈ ["Aurelia".toList] ∧
    isSimilarToAny "Aurelia".toList
      (["Zed".toList, "Aurelia".toList].map normalizeToken) = true ∧
    "Aurelia".toList ∈ buildOptions (fun _ => 0) (fun _ => 0) "Zed".toList
      ["Zed".toList, "Aurelia".toList] ["Aurelia".toList] := by decide

/-- C2 amended, as a complete characterization of the options array:
every option is either the correct label, or a distractor that is not
similar to the correct label and that moreover either is one of the
card-pool labels (the pool path, lines 368-374) or is a filler that is
similar neither to any card-pool label nor to the correct label (the
filler path, lines 377-383).  In particular no distractor similar to
the correct label ever appears, and every option actually drawn from
the filler list passed both filler filters; what fails in the original
claim is only that a filler name coinciding with a pool label can
still enter through the pool path. -/
theorem C2_amended_no_similar_distractor :
    ∀ (r1 r2 : Nat → Nat) (correct : List Char) (gameLabels fillers : List (List Char))
      (x : List Char), x ∈ buildOptions r1 r2 correct gameLabels fillers →
      x = correct ∨
        (isSimilar x correct = false ∧
          (x ∈ gameLabels ∨
            (x ∈ fillers ∧
              isSimilarToAny x (gameLabels.map normalizeToken) = false))) := by
  intro r1 r2 correct gameLabels fillers x hx
  unfold buildOptions at hx
  rw [shuffle_mem] at hx
  rcases List.mem_cons.mp hx with rfl | hx1
  · exact Or.inl rfl
  · right
    unfold chosenDistractors at hx1
    have hx2 := List.take_subset 3 _ hx1
    rcases fillTo3_mem _ _ _ hx2 with hP | hF
    · rw [shuffle_mem] at hP
      unfold candidateDistractors at hP
      have h1 := List.mem_filter.mp hP
      have h2 := List.mem_filter.mp h1.1
      have hsim : isSimilar x correct = false := by
        have := h1.2
        simpa using this
      exact ⟨hsim, Or.inl h2.1⟩
    · unfold acceptedFillers at hF
      have h1 := List.mem_filter.mp hF
      have h2 := List.mem_filter.mp h1.1
      have hsim : isSimilar x correct = false := by
        have := h1.2
        simpa using this
      have hany : isSimilarToAny x (gameLabels.map normalizeToken) = false := by
        have := h2.2
        simpa using this
      exact ⟨hsim, Or.inr ⟨h2.1, hany⟩⟩

theorem C2_witness :
    "Aurelia".toList ∈ buildOptions (fun _ => 0) (fun _ => 0) "Zed".toList
      ["Zed".toList] ["Aurelia".toList] ∧
    ("Aurelia".toList = "Zed".toList ∨
      (isSimilar "Aurelia".toList "Zed".toList = false ∧
        ("Aurelia".toList ∈ ["Zed".toList] ∨
          ("Aurelia".toList ∈ ["Aurelia".toList] ∧
            isSimilarToAny "Aurelia".toList
              (["Zed".toList].map normalizeToken) = false)))) :=
  ⟨by decide,
   C2_amended_no_similar_distractor (fun _ => 0) (fun _ => 0) "Zed".toList
     ["Zed".toList] ["Aurelia".toList] "Aurelia".toList (by decide)⟩

/-- C3: whenever the filtered candidate pool and the accepted fillers
jointly supply at least 3 distractors the options array has length
exactly 4; and for every input the options array is a permutation of
the correct label plus the chosen distractors, hence contains the
correct label. -/
theorem C3_options_length_and_permutation :
    ∀ (r1 r2 : Nat → Nat) (correct : List Char) (gameLabels fillers : List (List Char)),
      (3 ≤ (candidateDistractors correct gameLabels).length +
          (acceptedFillers correct gameLabels fillers).length →
        (buildOptions r1 r2 correct gameLabels fillers).length = 4) ∧
      (buildOptions r1 r2 correct gameLabels fillers).Perm
        (correct :: chosenDistractors r1 correct gameLabels fillers) ∧
      correct ∈ buildOptions r1 r2 correct gameLabels fillers := by
  intro r1 r2 correct gameLabels fillers
  have hperm : (buildOptions r1 r2 correct gameLabels fillers).Perm
      (correct :: chosenDistractors r1 correct gameLabels fillers) :=
    shuffle_perm r2 _
  refine ⟨?_, hperm, hperm.mem_iff.mpr (List.mem_cons_self _ _)⟩
  intro h3
  have hfl : 3 ≤ (fillTo3 (shuffle r1 (candidateDistractors correct gameLabels))
      (acceptedFillers correct gameLabels fillers)).length := by
    apply fillTo3_three_le
    rw [shuffle_length]
    omega
  rw [hperm.length_eq, List.length_cons]
  unfold chosenDistractors
  rw [List.length_take]
  omega

theorem C3_witness :
    3 ≤ (candidateDistractors "Aurelia".toList
          ["Aurelia".toList, "Thaddeus".toList, "Isolde".toList, "Cassian".toList]).length +
        (acceptedFillers "Aurelia".toList
          ["Aurelia".toList, "Thaddeus".toList, "Isolde".toList, "Cassian".toList] []).length ∧
    (buildOptions (fun _ => 0) (fun _ => 0) "Aurelia".toList
        ["Aurelia".toList, "Thaddeus".toList, "Isolde".toList, "Cassian".toList] []).length = 4 :=
  ⟨by decide,
   (C3_options_length_and_permutation (fun _ => 0) (fun _ => 0) "Aurelia".toList
      ["Aurelia".toList, "Thaddeus".toList, "Isolde".toList, "Cassian".toList] []).1
     (by decide)⟩

/-- C10: the options array always has between 1 and 4 entries and
always contains the correct label; when neither the candidate pool nor
the filler list supplies an acceptable distractor it is exactly the
singleton of the correct label. -/
theorem C10_options_bounds :
    ∀ (r1 r2 : Nat → Nat) (correct : List Char) (gameLabels fillers : List (List Char)),
      1 ≤ (buildOptions r1 r2 correct gameLabels fillers).length ∧
      (buildOptions r1 r2 correct gameLabels fillers).length ≤ 4 ∧
      correct ∈ buildOptions r1 r2 correct gameLabels fillers ∧
      (candidateDistractors correct gameLabels = [] →
        acceptedFillers correct gameLabels fillers = [] →
        buildOptions r1 r2 correct gameLabels fillers = [correct]) := by
  intro r1 r2 correct gameLabels fillers
  have hperm : (buildOptions r1 r2 correct gameLabels fillers).Perm
      (correct :: chosenDistractors r1 correct gameLabels fillers) :=
    shuffle_perm r2 _
  refine ⟨?_, ?_, hperm.mem_iff.mpr (List.mem_cons_self _ _), ?_⟩
  · rw [hperm.length_eq, List.length_cons]
    omega
  · rw [hperm.length_eq, List.length_cons]
    unfold chosenDistractors
    rw [List.length_take]
    omega
  · intro h1 h2
    unfold buildOptions chosenDistractors
    rw [h1, h2]
    rfl

theorem C10_witness :
    candidateDistractors "Zed".toList ["Zed".toList] = [] ∧
    acceptedFillers "Zed".toList ["Zed".toList] [] = [] ∧
    buildOptions (fun _ => 0) (fun _ => 0) "Zed".toList ["Zed".toList] [] = ["Zed".toList] :=
  ⟨by decide, by decide,
   (C10_options_bounds (fun _ => 0) (fun _ => 0) "Zed".toList ["Zed".toList] []).2.2.2
     (by decide) (by decide)⟩

/-- C7 fails as stated: the dedup key lowercases the label but does not
strip non-alphanumeric characters, so two cards whose labels share the
§4.1 normalized token but differ as lowercase strings both stay in the
pool. -/
theorem C7_counterexample :
    dedupPool [] [annaCard, annaSpacedCard] = [annaCard, annaSpacedCard] ∧
    annaCard.category = annaSpacedCard.category ∧
    normalizeToken annaCard.label = normalizeToken annaSpacedCard.label ∧
    annaCard.image = annaSpacedCard.image ∧
    annaCard.label ≠ annaSpacedCard.label := by decide

/-- C7 amended: every card in the deduplicated pool has a non-empty
label and image, and no two pool cards share the composite key
`(category, lowercased label, image)` the source actually uses;
malformed cards are silently dropped (the filter is total). -/
theorem C7_amended_pool_invariant :
    ∀ cards : List GameCard,
      (∀ c ∈ dedupPool [] cards, c.label ≠ [] ∧ c.image ≠ []) ∧
      (dedupPool [] cards).Pairwise (fun a b => cardKey a ≠ cardKey b) :=
  fun cards =>
    ⟨fun c hc => dedupPool_wellFormed cards [] c hc, (dedupPool_keys cards []).2⟩

theorem C7_witness :
    boCard ∈ dedupPool [] [boCard] ∧ boCard.label ≠ [] ∧ boCard.image ≠ [] :=
  ⟨by decide, (C7_amended_pool_invariant [boCard]).1 boCard (by decide)⟩

/-- C8 fails as stated: skipping a non-final question re-enters
`startNewQuestion`, which resets the graded-correct flag to `false`,
so a state holding `isCorrect = true` does not keep the flag
unchanged. -/
theorem C8_counterexample :
    skipDemoState.currentCard = some zedCard ∧
    skipDemoState.isCorrect = true ∧
    (skipCurrent demoRand skipDemoState).isCorrect = false := by
  refine ⟨rfl, rfl, ?_⟩
  rfl

/-- C8 amended: with a current card present, a skip increments the
skip counter by exactly 1, appends the card's id when it has a
non-empty one, and leaves the correct-answer count and the question
budget unchanged; the graded-correct flag is never set by a skip — it
is either left unchanged (game over) or reset to `false`. -/
theorem C8_amended_skip_effects :
    ∀ (r : Rand) (s : GameState) (c : GameCard), s.currentCard = some c →
      (skipCurrent r s).skipCount = s.skipCount + 1 ∧
      (∀ i, c.id = some i → i ≠ [] →
        (skipCurrent r s).skippedCardIds = s.skippedCardIds ++ [i]) ∧
      (skipCurrent r s).correctAnswers = s.correctAnswers ∧
      (skipCurrent r s).totalQuestions = s.totalQuestions ∧
      ((skipCurrent r s).isCorrect = s.isCorrect ∨
        (skipCurrent r s).isCorrect = false) := by
  intro r s c h
  unfold skipCurrent
  rw [h]
  dsimp only
  by_cases hq : s.totalQuestions ≤ s.currentQuestion
  · rw [if_pos hq]
    refine ⟨by simp [endGame], ?_, by simp [endGame], by simp [endGame],
      Or.inl (by simp [endGame])⟩
    intro i hi hne
    simp [endGame, hi, hne]
  · rw [if_neg hq]
    refine ⟨?_, ?_, ?_, ?_, ?_⟩
    · rw [(startNewQuestion_frame r _).1]
    · intro i hi hne
      rw [(startNewQuestion_frame r _).2.1]
      simp [hi, hne]
    · rw [(startNewQuestion_frame r _).2.2.1]
    · rw [(startNewQuestion_frame r _).2.2.2.1]
    · rcases (startNewQuestion_frame r _).2.2.2.2 with he | he
      · rw [he]
        exact Or.inl rfl
      · exact Or.inr he

theorem C8_witness :
    lastSkipState.currentCard = some ivyCard ∧
    (skipCurrent demoRand lastSkipState).skipCount = lastSkipState.skipCount + 1 :=
  ⟨rfl, (C8_amended_skip_effects demoRand lastSkipState ivyCard rfl).1⟩

example : levenshtein "ana".toList "anna".toList = 1 := by decide
example : levenshtein "bob".toList "anna".toList = 4 := by decide
example : isSimilar "Ana".toList "Anna".toList = true := by decide
example : isSimilar "Anna".toList "An".toList = true := by decide
example : levenshtein "anna".toList "an".toList = 2 := by decide
example : isSimilar "Amy".toList "Kay".toList = false := by decide
example : isSimilar "Amy".toList "Any".toList = true := by decide
example : isSimilar "!".toList "!".toList = false := by decide
example : grade "Ana".toList "Anna".toList = true := by decide
example : grade "Bob".toList "Anna".toList = false := by decide

end NTM
